import Mathlib

/-!
Verification of the vdl concurrent download/search core against its design
specification.

The development shallowly embeds the two core units of the repository:

* DownloadManager (src/vdl/downloader/download_manager.py): the task body
  download_file is modelled as a pure function from an environment (connection
  outcome, HTTP status, Content-Length header, filesystem outcomes, and the
  chunk stream yielded by iter_chunked) to a trace of callback events, a count
  of bytes written, and the exception state at the task boundary.  The
  coordinator's tracking set is modelled as a Finset of task handles acted on
  by start/exit events.

* VsixApiHandler (src/vdl/downloader/vsix_api_handler.py): JSON values are an
  inductive type, Python subscripting / .get / iteration are embedded with
  their exception behaviour (KeyError, IndexError, TypeError, AttributeError),
  and _call_api / _build_query / _parse_results / search_extensions are
  translated clause by clause, including the except chains.

* SearchScreen (src/vdl/tui/screens/search_screen.py): the per-search dict of
  results and the widget mounting with DuplicateIds suppression are modelled
  as list-backed state, keyed by the extension name with Python dict update
  semantics.
-/

/-! ## Python exceptions arising in the download task body -/

/-- Exceptions that the body of DownloadManager.download_file can raise:
connection failure in session.get, ClientResponseError from raise_for_status,
ValueError from int() on the Content-Length header, OSError from os.makedirs,
open, or file.write, a read error from the response stream, and external task
cancellation. -/
inductive PyErr
  | connectErr
  | statusErr
  | valueErr
  | mkdirErr
  | openErr
  | writeErr
  | readErr
  | cancelled
deriving DecidableEq, Repr

/-- The clause "except Exception" catches every exception that derives from
Exception.  Since Python 3.8, asyncio.CancelledError derives from
BaseException only, so it is not caught by that clause (the finally clause
still runs for it). -/
def PyErr.isException : PyErr → Bool
  | PyErr.cancelled => false
  | _ => true

/-! ## Python int() applied to a header value -/

/-- Whitespace stripped by Python int() before parsing (ASCII subset). -/
def isPySpace (c : Char) : Bool :=
  c = ' ' || c = '\t' || c = '\n' || c = '\r' || c = '\x0b' || c = '\x0c'

/-- Decimal digit value of a character, none for a non-digit. -/
def digitVal (c : Char) : Option Nat :=
  if '0' ≤ c ∧ c ≤ '9' then some (c.toNat - '0'.toNat) else none

/-- Digits after the first one; Python allows a single underscore between two
digits ("1_000") but rejects leading, trailing, or doubled underscores. -/
def pyDigitsCore : List Char → Nat → Option Nat
  | [], acc => some acc
  | '_' :: rest, acc =>
      match rest with
      | [] => none
      | c :: rest2 =>
          match digitVal c with
          | some d => pyDigitsCore rest2 (acc * 10 + d)
          | none => none
  | c :: rest, acc =>
      match digitVal c with
      | some d => pyDigitsCore rest (acc * 10 + d)
      | none => none

/-- A nonempty digit run with optional single underscores between digits. -/
def pyDigits : List Char → Option Nat
  | [] => none
  | c :: rest =>
      match digitVal c with
      | some d => pyDigitsCore rest d
      | none => none

/-- Python int(s) for a str argument: strip whitespace, optional sign, then a
nonempty run of decimal digits; anything else raises ValueError (modelled as
none).  Non-ASCII digits are out of scope of this embedding. -/
def pyIntOfStr (s : String) : Option Int :=
  let cs := ((s.toList.dropWhile isPySpace).reverse.dropWhile isPySpace).reverse
  match cs with
  | '+' :: rest => (pyDigits rest).map (fun n => (n : Int))
  | '-' :: rest => (pyDigits rest).map (fun n => -(n : Int))
  | rest => (pyDigits rest).map (fun n => (n : Int))

/-- int(response.headers.get("Content-Length", 0)): an absent header yields
the int default 0 directly; a present header is a str handed to int(), which
raises ValueError (none) when the text is unparsable. -/
def headerTotal : Option String → Option Int
  | none => some 0
  | some s => pyIntOfStr s

/-! ## The download task body -/

/-- One step of the response stream as seen by the read/write loop: a chunk of
a given size whose file.write either succeeds or raises, or a read error
raised by the stream itself.  aiohttp's iter_chunked never yields an empty
chunk. -/
inductive StreamItem
  | chunk (size : Nat) (writeOk : Bool)
  | readErr
deriving DecidableEq, Repr

/-- The environment a single run of download_file executes against. -/
structure DlEnv where
  connectOk : Bool
  status : Nat
  contentLength : Option String
  mkdirOk : Bool
  openOk : Bool
  stream : List StreamItem
deriving DecidableEq, Repr

/-- Callback invocations observable by the caller of download_file. -/
inductive DlEv
  | progress (downloaded : Int) (total : Int)
  | complete (downloaded : Int) (total : Int)
deriving DecidableEq, Repr

/-- Whether an event is a progress callback. -/
def DlEv.isProgress : DlEv → Bool
  | DlEv.progress _ _ => true
  | DlEv.complete _ _ => false

/-- The total argument passed with an event. -/
def DlEv.total : DlEv → Int
  | DlEv.progress _ t => t
  | DlEv.complete _ t => t

/-- Result of running the body of download_file up to the point where an
exception (if any) leaves the try block: the callback events already issued,
the bytes written to the destination file, and the pending exception. -/
structure BodyResult where
  events : List DlEv
  written : Int
  err : Option PyErr
deriving DecidableEq, Repr

/-- The async-for loop of download_file: for each chunk, file.write(chunk),
then downloaded += len(chunk), then progress_callback(downloaded, total). -/
def streamLoop (total : Int) : List StreamItem → Int → BodyResult
  | [], d => ⟨[], d, none⟩
  | StreamItem.readErr :: _, d => ⟨[], d, some PyErr.readErr⟩
  | StreamItem.chunk size wok :: rest, d =>
      if wok then
        let r := streamLoop total rest (d + (size : Int))
        ⟨DlEv.progress (d + (size : Int)) total :: r.events, r.written, r.err⟩
      else ⟨[], d, some PyErr.writeErr⟩

/-- The try-block of download_file: connect, raise_for_status (aiohttp raises
for status >= 400), total_size from the Content-Length header, os.makedirs,
open, the chunk loop, and finally completion_callback(downloaded, total_size)
exactly once on stream exhaustion. -/
def runBody (env : DlEnv) : BodyResult :=
  if env.connectOk = false then ⟨[], 0, some PyErr.connectErr⟩
  else if 400 ≤ env.status then ⟨[], 0, some PyErr.statusErr⟩
  else
    match headerTotal env.contentLength with
    | none => ⟨[], 0, some PyErr.valueErr⟩
    | some total =>
        if env.mkdirOk = false then ⟨[], 0, some PyErr.mkdirErr⟩
        else if env.openOk = false then ⟨[], 0, some PyErr.openErr⟩
        else
          match (streamLoop total env.stream 0).err with
          | some e => ⟨(streamLoop total env.stream 0).events,
              (streamLoop total env.stream 0).written, some e⟩
          | none => ⟨(streamLoop total env.stream 0).events ++
                [DlEv.complete (streamLoop total env.stream 0).written total],
              (streamLoop total env.stream 0).written, none⟩

/-- Observable outcome of one download_file call: the events issued, bytes
written, whether the except clause printed an error report, and the exception
(if any) escaping the task boundary. -/
structure DlResult where
  events : List DlEv
  written : Int
  reported : Bool
  raised : Option PyErr
deriving DecidableEq, Repr

/-- download_file: the try block, then "except Exception as e: print(...)"
which catches and reports every Exception-derived error; anything else (only
BaseException-derived cancellation) would escape. -/
def downloadFile (env : DlEnv) : DlResult :=
  match (runBody env).err with
  | none => ⟨(runBody env).events, (runBody env).written, false, none⟩
  | some e =>
      if e.isException then
        ⟨(runBody env).events, (runBody env).written, true, none⟩
      else ⟨(runBody env).events, (runBody env).written, false, some e⟩

/-- The whole task: download_file together with its finally clause, which
discards the current task from the manager's tracking set on every exit
path. -/
def downloadTask (env : DlEnv) (tasks : Finset Nat) (tid : Nat) :
    DlResult × Finset Nat :=
  (downloadFile env, tasks.erase tid)

/-- The total_size value a run uses: 0 for an absent header, the parsed value
otherwise (unparsable headers never reach the loop). -/
def dlTotal (env : DlEnv) : Int := (headerTotal env.contentLength).getD 0

/-- Partial sums d + s1, d + s1 + s2, ... of the chunk sizes: the successive
downloaded counters reported by progress callbacks. -/
def cumSums (d : Int) : List Nat → List Int
  | [] => []
  | s :: rest => (d + (s : Int)) :: cumSums (d + (s : Int)) rest

/-- Sum of chunk sizes as an integer. -/
def sumNat : List Nat → Int
  | [] => 0
  | s :: rest => (s : Int) + sumNat rest

/-- A stream in which every read yields a chunk and every write succeeds. -/
def goodChunks (ss : List Nat) : List StreamItem :=
  ss.map (fun s => StreamItem.chunk s true)

/-- The downloaded arguments of the progress callbacks, in order. -/
def progressDownloads (evs : List DlEv) : List Int :=
  evs.filterMap (fun ev =>
    match ev with
    | DlEv.progress d _ => some d
    | DlEv.complete _ _ => none)

/-- The (downloaded, total) arguments of the completion callbacks, in order. -/
def completes (evs : List DlEv) : List (Int × Int) :=
  evs.filterMap (fun ev =>
    match ev with
    | DlEv.complete d t => some (d, t)
    | DlEv.progress _ _ => none)

/-- A fully successful run: 200 response, Content-Length 7, chunks 3 and 4. -/
def envOk : DlEnv := ⟨true, 200, some "7", true, true,
  [StreamItem.chunk 3 true, StreamItem.chunk 4 true]⟩

/-- A run whose response carries an unparsable Content-Length header. -/
def envBadHeader : DlEnv := ⟨true, 200, some "abc", true, true,
  [StreamItem.chunk 5 true]⟩

/-- A run whose response has no Content-Length header at all. -/
def envNoHeader : DlEnv := ⟨true, 200, none, true, true,
  [StreamItem.chunk 3 true, StreamItem.chunk 4 true]⟩

/-- A run rejected by raise_for_status (HTTP 404). -/
def envNotFound : DlEnv := ⟨true, 404, none, true, true, []⟩

/-! ## The coordinator's tracking set -/

/-- How a download task ended. -/
inductive Outcome
  | success
  | failure
  | cancelled
deriving DecidableEq, Repr

/-- Events acting on the tracking set: start_download adds the freshly created
task, and the finally clause of download_file discards it when the task ends
with the given outcome. -/
inductive TaskEv
  | start (tid : Nat)
  | exit (tid : Nat) (o : Outcome)
deriving DecidableEq, Repr

/-- Effect of one event on _download_tasks: add on start, discard on exit
(set.discard removes the element if present and is silent otherwise, exactly
like Finset.erase). -/
def stepTasks (s : Finset Nat) : TaskEv → Finset Nat
  | TaskEv.start i => insert i s
  | TaskEv.exit i _ => s.erase i

/-- Folding a schedule of start/exit events over the tracking set. -/
def applyEvents (s : Finset Nat) (evs : List TaskEv) : Finset Nat :=
  evs.foldl stepTasks s

/-- active_downloads: the size of the tracking set. -/
def activeDownloads (s : Finset Nat) : Nat := s.card

/-- The tracking set right after DownloadManager.__init__: an empty set. -/
def initialTasks : Finset Nat := (∅ : Finset Nat)

/-- Whether an event concerns the given task handle. -/
def touches (i : Nat) : TaskEv → Bool
  | TaskEv.start j => i == j
  | TaskEv.exit j _ => i == j

/-- A concrete interleaved schedule of two downloads, one failing. -/
def demoSchedule : List TaskEv :=
  [TaskEv.start 0, TaskEv.start 1, TaskEv.exit 1 Outcome.failure,
   TaskEv.exit 0 Outcome.success]

/-! ## JSON values and Python access primitives -/

/-- Exceptions arising in the search client: Python builtins raised by
subscripting, indexing, attribute access and the explicit ValueError, the
httpx exceptions raised by the POST (connect errors and timeouts, both
subclasses of httpx.RequestError, and HTTPStatusError from raise_for_status),
asyncio.CancelledError raised on the stop flag, and the two plain Exception
wrappers built by the except clauses of _call_api. -/
inductive Exc
  | keyError
  | indexError
  | typeError
  | attributeError
  | valueError
  | httpxConnectError
  | httpxTimeout
  | httpStatusError
  | cancelledError
  | wrappedHttpError
  | wrappedTimeoutError
deriving DecidableEq, Repr

/-- The httpx class hierarchy: TimeoutException is a subclass of RequestError,
so the clause "except httpx.RequestError" catches both; HTTPStatusError is a
sibling of RequestError and is caught by neither clause. -/
def Exc.isHttpxRequestError : Exc → Bool
  | Exc.httpxConnectError => true
  | Exc.httpxTimeout => true
  | _ => false

/-- A JSON value as returned by response.json(). -/
inductive Json
  | null
  | bool (b : Bool)
  | num (n : Int)
  | str (s : String)
  | arr (xs : List Json)
  | obj (kvs : List (String × Json))

mutual

/-- Structural equality of JSON values (Python == on decoded JSON data). -/
def Json.beq : Json → Json → Bool
  | Json.null, Json.null => true
  | Json.bool a, Json.bool b => a == b
  | Json.num a, Json.num b => a == b
  | Json.str a, Json.str b => a == b
  | Json.arr xs, Json.arr ys => Json.beqList xs ys
  | Json.obj xs, Json.obj ys => Json.beqKVs xs ys
  | _, _ => false

/-- Elementwise equality of JSON arrays. -/
def Json.beqList : List Json → List Json → Bool
  | [], [] => true
  | x :: xs, y :: ys => Json.beq x y && Json.beqList xs ys
  | _, _ => false

/-- Pairwise equality of JSON object entries. -/
def Json.beqKVs : List (String × Json) → List (String × Json) → Bool
  | [], [] => true
  | (k, v) :: xs, (k2, v2) :: ys => k == k2 && Json.beq v v2 && Json.beqKVs xs ys
  | _, _ => false

end

/-- Python truthiness of a decoded JSON value: None, False, 0, "", [], and {}
are falsy, everything else truthy. -/
def truthy : Json → Bool
  | Json.null => false
  | Json.bool b => b
  | Json.num n => n != 0
  | Json.str s => s != ""
  | Json.arr xs => !xs.isEmpty
  | Json.obj kvs => !kvs.isEmpty

/-- First value bound to a key in a JSON object (dicts decoded from JSON have
unique keys; lookup returns the first match). -/
def lookupKey : List (String × Json) → String → Option Json
  | [], _ => none
  | p :: rest, k => if p.1 = k then some p.2 else lookupKey rest k

/-- Python subscripting value[key] with a str key: a dict lookup raising
KeyError when absent; a list or a str raises TypeError, as do the scalars. -/
def pyGetItem (j : Json) (k : String) : Except Exc Json :=
  match j with
  | Json.obj kvs =>
      match lookupKey kvs k with
      | some v => Except.ok v
      | none => Except.error Exc.keyError
  | _ => Except.error Exc.typeError

/-- Python subscripting value[i] with an int index: a list indexes (IndexError
when out of range), a str yields a one-character str, a dict raises KeyError
(an int key is absent from a str-keyed dict), scalars raise TypeError. -/
def pyIndex (j : Json) (i : Nat) : Except Exc Json :=
  match j with
  | Json.arr xs =>
      match xs.get? i with
      | some v => Except.ok v
      | none => Except.error Exc.indexError
  | Json.str s =>
      match s.toList.get? i with
      | some c => Except.ok (Json.str (String.singleton c))
      | none => Except.error Exc.indexError
  | Json.obj _ => Except.error Exc.keyError
  | _ => Except.error Exc.typeError

/-- Python value.get(key, default): defined on dicts only (AttributeError on
anything else); returns the stored value even when it is null. -/
def pyGetDefault (j : Json) (k : String) (dflt : Json) : Except Exc Json :=
  match j with
  | Json.obj kvs => Except.ok ((lookupKey kvs k).getD dflt)
  | _ => Except.error Exc.attributeError

/-- Python iteration "for x in value": a list yields its elements, a str its
characters, a dict its keys; scalars raise TypeError. -/
def pyIter (j : Json) : Except Exc (List Json) :=
  match j with
  | Json.arr xs => Except.ok xs
  | Json.str s => Except.ok (s.toList.map (fun c => Json.str (String.singleton c)))
  | Json.obj kvs => Except.ok (kvs.map (fun p => Json.str p.1))
  | _ => Except.error Exc.typeError

/-- Python == between a decoded JSON value and a string literal: true exactly
for the equal str. -/
def jsonEqStr (j : Json) (s : String) : Bool :=
  match j with
  | Json.str t => t == s
  | _ => false

/-! ## The marketplace search client -/

/-- The extension record built by _parse_results.  Fields hold the raw JSON
values extracted from the response (pydantic validation of the Extension model
is outside the verified core); download_url is Python None when no VSIX
package file exists. -/
structure Extension where
  publisher : Json
  domain : Json
  name : Json
  displayName : Json
  lastUpdated : Json
  description : Json
  version : Json
  downloadUrl : Option Json

/-- One filter criterion of the query payload. -/
structure Criterion where
  filterType : Nat
  value : String
deriving DecidableEq, Repr

/-- One filter block of the query payload. -/
structure QueryFilter where
  criteria : List Criterion
  pageNumber : Nat
  pageSize : Nat
  sortBy : Nat
  sortOrder : Nat
deriving DecidableEq, Repr

/-- The full query payload sent to the marketplace endpoint. -/
structure QueryPayload where
  filters : List QueryFilter
  assetTypes : List String
  flags : Nat
deriving DecidableEq, Repr

/-- VsixApiHandler._build_query: one criterion, pagination, fixed sort fields,
empty assetTypes, flags 514. -/
def buildQuery (filterType : Nat) (value : String) (pageNumber : Nat)
    (pageSize : Nat) : QueryPayload :=
  ⟨[⟨[⟨filterType, value⟩], pageNumber, pageSize, 0, 0⟩], [], 514⟩

/-- The payload search_extensions builds: filter code 4 when searching by
publisher, 10 when searching by extension name. -/
def searchPayload (query : String) (byPublisher : Bool) (pageSize : Nat)
    (pageNumber : Nat) : QueryPayload :=
  buildQuery (if byPublisher then 4 else 10) query pageNumber pageSize

/-- Update of the first criterion's filter type, used to state that two
payloads differ only in that field. -/
def setFirstFilterType (p : QueryPayload) (t : Nat) : QueryPayload :=
  match p.filters with
  | [] => p
  | f :: fs =>
      match f.criteria with
      | [] => p
      | c :: cs => ⟨⟨⟨t, c.value⟩ :: cs, f.pageNumber, f.pageSize, f.sortBy,
          f.sortOrder⟩ :: fs, p.assetTypes, p.flags⟩

/-- Outcome of the awaited client.post: a request-level failure, a timeout, or
a response with a status code and a decoded JSON body. -/
inductive NetResult
  | connErr
  | timedOut
  | ok (status : Nat) (body : Json)

/-- Environment of one _call_api run: whether stop() is called while the
request is in flight (so the flag is set when is_set() runs after the response
arrives), and the network outcome. -/
structure SearchEnv where
  stopDuring : Bool
  net : NetResult

/-- The try-block of _call_api: the POST (payload and headers do not influence
the modelled network outcome), then the stop-flag check raising
asyncio.CancelledError, then raise_for_status (httpx raises HTTPStatusError
for any non-2xx status), then response.json(). -/
def callApiRaw (env : SearchEnv) : Except Exc (Option Json) :=
  match env.net with
  | NetResult.connErr => Except.error Exc.httpxConnectError
  | NetResult.timedOut => Except.error Exc.httpxTimeout
  | NetResult.ok status body =>
      if env.stopDuring then Except.error Exc.cancelledError
      else if 200 ≤ status ∧ status < 300 then Except.ok (some body)
      else Except.error Exc.httpStatusError

/-- _call_api: the method first clears the stop event, so the flag state at
call time (flagIn) is never consulted afterwards; then the try-block, then the
except chain: httpx.RequestError (which also catches TimeoutException, a
subclass) is re-raised as a plain Exception wrapper, the TimeoutException
clause is therefore unreachable, and asyncio.CancelledError is caught,
printed, and turned into a None return. -/
def callApi (flagIn : Bool) (payload : QueryPayload) (env : SearchEnv) :
    Except Exc (Option Json) :=
  match callApiRaw env with
  | Except.ok r => Except.ok r
  | Except.error e =>
      if e.isHttpxRequestError then Except.error Exc.wrappedHttpError
      else if e = Exc.httpxTimeout then Except.error Exc.wrappedTimeoutError
      else if e = Exc.cancelledError then Except.ok none
      else Except.error e

/-- The asset type whose first matching file provides the download URL. -/
def vsixAssetType : String := "Microsoft.VisualStudio.Services.VSIXPackage"

/-- The generator next((file["source"] for file in files if file["assetType"]
== vsixAssetType), None): files are inspected in order, file["source"] is
evaluated only for the first match, and exhaustion yields the None default. -/
def findVsix : List Json → Except Exc (Option Json)
  | [] => Except.ok none
  | f :: rest => do
      let a ← pyGetItem f "assetType"
      if jsonEqStr a vsixAssetType then do
        let s ← pyGetItem f "source"
        pure (some s)
      else findVsix rest

/-- The per-extension body of the loop in _parse_results, in source order:
publisher name, publisher domain (defaulted), lastUpdated (defaulted),
extension name, display name (defaulted), short description (defaulted), the
first entry of versions, its version string, and the VSIX download URL. -/
def parseOne (ext : Json) : Except Exc Extension := do
  let pub ← pyGetItem ext "publisher"
  let publisherName ← pyGetItem pub "publisherName"
  let domain ← pyGetDefault pub "domain" (Json.str "marketplace.visualstudio.com")
  let lastUpdated ← pyGetDefault ext "lastUpdated" (Json.str "Unknown")
  let extensionName ← pyGetItem ext "extensionName"
  let displayName ← pyGetDefault ext "displayName" (Json.str "N/A")
  let description ← pyGetDefault ext "shortDescription"
    (Json.str "No description available.")
  let versions ← pyGetItem ext "versions"
  let versionData ← pyIndex versions 0
  let version ← pyGetItem versionData "version"
  let files ← pyGetItem versionData "files"
  let fileList ← pyIter files
  let downloadUrl ← findVsix fileList
  pure ⟨publisherName, domain, extensionName, displayName, lastUpdated,
    description, version, downloadUrl⟩

/-- The try-block of _parse_results: results = data["results"][0]["extensions"]
followed by the loop collecting Extension records; any exception discards the
partial list. -/
def parseRaw (data : Json) : Except Exc (List Extension) := do
  let results ← pyGetItem data "results"
  let first ← pyIndex results 0
  let exts ← pyGetItem first "extensions"
  let items ← pyIter exts
  items.mapM parseOne

/-- _parse_results: the try-block with "except (KeyError, IndexError): raise
ValueError(...)"; other exceptions (for example TypeError from an unexpected
shape) propagate unchanged. -/
def parseResults (data : Json) : Except Exc (List Extension) :=
  match parseRaw data with
  | Except.ok l => Except.ok l
  | Except.error e =>
      if e = Exc.keyError ∨ e = Exc.indexError then Except.error Exc.valueError
      else Except.error e

/-- search_extensions: pick the filter code, build the payload, await
_call_api, and return _parse_results(data) if data else [] (Python truthiness:
a None return from cancellation, but also any falsy JSON body such as the
empty object, short-circuits to the empty list). -/
def searchExtensions (query : String) (byPublisher : Bool) (pageSize : Nat)
    (pageNumber : Nat) (flagIn : Bool) (env : SearchEnv) :
    Except Exc (List Extension) :=
  match callApi flagIn (searchPayload query byPublisher pageSize pageNumber)
      env with
  | Except.error e => Except.error e
  | Except.ok none => Except.ok []
  | Except.ok (some d) => if truthy d then parseResults d else Except.ok []

/-! ## The search screen's result dictionary -/

/-- State of SearchScreen accumulated by populate_extensions: the extensions
dict (insertion-ordered, Python dict semantics) and the ids of the mounted
ExtensionWidgets. -/
structure ScreenState where
  dict : List (Json × Extension)
  mounted : List Json

/-- Python dict assignment d[k] = v: overwrite the value in place when the key
is present, append otherwise. -/
def pyDictSet (d : List (Json × Extension)) (k : Json) (v : Extension) :
    List (Json × Extension) :=
  if d.any (fun p => Json.beq p.1 k) then
    d.map (fun p => if Json.beq p.1 k then (p.1, v) else p)
  else d ++ [(k, v)]

/-- Python dict lookup d[k] as an Option. -/
def pyDictGet (d : List (Json × Extension)) (k : Json) : Option Extension :=
  (d.find? (fun p => Json.beq p.1 k)).map Prod.snd

/-- One iteration of the loop in populate_extensions: the dict assignment
self.extensions[extension.name] = extension always runs; the widget mount
raises DuplicateIds (swallowed by the except clause) when a widget with that
id is already mounted, so only the first occurrence is displayed. -/
def populateStep (st : ScreenState) (e : Extension) : ScreenState :=
  { dict := pyDictSet st.dict e.name e,
    mounted :=
      if st.mounted.any (fun m => Json.beq m e.name) then st.mounted
      else st.mounted ++ [e.name] }

/-- populate_extensions over the search results, starting from the screen's
initial empty dict and no mounted widgets. -/
def populateExtensions (rs : List Extension) : ScreenState :=
  rs.foldl populateStep ⟨[], []⟩

/-- on_button_pressed for a download button: the record dismissed to the
caller is self.extensions[extension_name]. -/
def onDownloadPressed (st : ScreenState) (name : Json) : Option Extension :=
  pyDictGet st.dict name

/-- The first result named "dup", version 1.0. -/
def exA : Extension := ⟨Json.str "pub", Json.str "marketplace.visualstudio.com",
  Json.str "dup", Json.str "Dup", Json.str "Unknown", Json.str "d",
  Json.str "1.0", none⟩

/-- A second result with the same name "dup" but version 2.0. -/
def exB : Extension := ⟨Json.str "pub", Json.str "marketplace.visualstudio.com",
  Json.str "dup", Json.str "Dup", Json.str "Unknown", Json.str "d",
  Json.str "2.0", none⟩

/-- A search whose response is the empty JSON object (falsy, and missing the
results key). -/
def envEmptyObj : SearchEnv := ⟨false, NetResult.ok 200 (Json.obj [])⟩

/-- A search stopped while the request is in flight. -/
def envStopped : SearchEnv :=
  ⟨true, NetResult.ok 200 (Json.obj [("results", Json.arr [])])⟩

/-- A truthy response body lacking the results key. -/
def respNoResults : Json := Json.obj [("foo", Json.num 1)]

/-- A search returning the truthy malformed body. -/
def envNoResults : SearchEnv := ⟨false, NetResult.ok 200 respNoResults⟩

/-- A file entry of a version: an object with assetType and source fields. -/
def mkFile (f : String × String) : Json :=
  Json.obj [("assetType", Json.str f.1), ("source", Json.str f.2)]

/-- A version entry with a version string and a list of files. -/
def mkVersion (vstr : String) (files : List (String × String)) : Json :=
  Json.obj [("version", Json.str vstr), ("files", Json.arr (files.map mkFile))]

/-- A well-formed extension entry whose versions list starts with the given
version followed by arbitrary further entries. -/
def mkEntry (pubName : String) (extName : String) (vstr : String)
    (files : List (String × String)) (rest : List Json) : Json :=
  Json.obj [("publisher", Json.obj [("publisherName", Json.str pubName)]),
    ("extensionName", Json.str extName),
    ("versions", Json.arr (mkVersion vstr files :: rest))]

/-- A well-formed response carrying the given extension entries. -/
def mkResponse (entries : List Json) : Json :=
  Json.obj [("results", Json.arr [Json.obj [("extensions", Json.arr entries)]])]

/-- The widget ids actually mounted: the first occurrence of each name, in
order (later duplicates raise DuplicateIds, which populate_extensions
swallows). -/
def firstOccurrences (ks : List Json) : List Json :=
  ks.foldl (fun acc k =>
    if acc.any (fun m => Json.beq m k) then acc else acc ++ [k]) []

/-! ## Lemmas about the download task body -/

theorem streamLoop_goodChunks (total : Int) :
    ∀ (ss : List Nat) (d : Int),
      streamLoop total (goodChunks ss) d =
        ⟨(cumSums d ss).map (fun x => DlEv.progress x total), d + sumNat ss, none⟩ := by
  intro ss
  induction ss with
  | nil => intro d; simp [streamLoop, goodChunks, cumSums, sumNat]
  | cons s rest ih =>
      intro d
      simp only [goodChunks, List.map] at ih ⊢
      rw [streamLoop]
      simp only [if_pos rfl, ih (d + (s : Int)), cumSums, sumNat, List.map]
      refine congrArg (fun w => BodyResult.mk _ w none) ?_
      ring

theorem streamLoop_err_none_shape (total : Int) :
    ∀ (items : List StreamItem) (d : Int),
      (streamLoop total items d).err = none → ∃ ss, items = goodChunks ss := by
  intro items
  induction items with
  | nil => exact fun d _ => ⟨[], rfl⟩
  | cons it rest ih =>
      intro d h
      cases it with
      | readErr => simp [streamLoop] at h
      | chunk s wok =>
          cases wok with
          | false => simp [streamLoop] at h
          | true =>
              rw [streamLoop] at h
              simp only [if_pos rfl] at h
              obtain ⟨ss, hss⟩ := ih (d + (s : Int)) h
              exact ⟨s :: ss, by simp [goodChunks, hss]⟩

theorem streamLoop_events_all_progress (total : Int) :
    ∀ (items : List StreamItem) (d : Int),
      ∀ ev ∈ (streamLoop total items d).events, ev.isProgress = true := by
  intro items
  induction items with
  | nil => intro d ev h; simp [streamLoop] at h
  | cons it rest ih =>
      intro d ev h
      cases it with
      | readErr => simp [streamLoop] at h
      | chunk s wok =>
          cases wok with
          | false => simp [streamLoop] at h
          | true =>
              rw [streamLoop] at h
              simp only [if_pos rfl] at h
              rcases List.mem_cons.mp h with h | h
              · rw [h]; rfl
              · exact ih (d + (s : Int)) ev h

theorem streamLoop_events_total (total : Int) :
    ∀ (items : List StreamItem) (d : Int),
      ∀ ev ∈ (streamLoop total items d).events, ev.total = total := by
  intro items
  induction items with
  | nil => intro d ev h; simp [streamLoop] at h
  | cons it rest ih =>
      intro d ev h
      cases it with
      | readErr => simp [streamLoop] at h
      | chunk s wok =>
          cases wok with
          | false => simp [streamLoop] at h
          | true =>
              rw [streamLoop] at h
              simp only [if_pos rfl] at h
              rcases List.mem_cons.mp h with h | h
              · rw [h]; rfl
              · exact ih (d + (s : Int)) ev h

theorem streamLoop_err_cases (total : Int) :
    ∀ (items : List StreamItem) (d : Int) (e : PyErr),
      (streamLoop total items d).err = some e →
      e = PyErr.writeErr ∨ e = PyErr.readErr := by
  intro items
  induction items with
  | nil => intro d e h; simp [streamLoop] at h
  | cons it rest ih =>
      intro d e h
      cases it with
      | readErr =>
          simp only [streamLoop, Option.some_inj] at h
          exact Or.inr h.symm
      | chunk s wok =>
          cases wok with
          | false =>
              rw [streamLoop] at h
              simp at h
              exact Or.inl h.symm
          | true =>
              rw [streamLoop] at h
              simp only [if_pos rfl] at h
              exact ih (d + (s : Int)) e h

theorem cumSums_chain (ss : List Nat) :
    ∀ d : Int, (∀ s ∈ ss, 0 < s) → List.Chain' (· < ·) (cumSums d ss) := by
  induction ss with
  | nil => intro d _; simp [cumSums]
  | cons s rest ih =>
      intro d hpos
      cases rest with
      | nil => simp [cumSums]
      | cons s2 rest2 =>
          rw [cumSums, cumSums, List.chain'_cons]
          constructor
          · have : 0 < s2 := hpos s2 (by simp)
            omega
          · have := ih (d + (s : Int)) (fun x hx => hpos x (by simp [hx]))
            rw [cumSums] at this
            exact this

theorem cumSums_getLastQ (ss : List Nat) :
    ∀ d : Int, ss ≠ [] → (cumSums d ss).getLast? = some (d + sumNat ss) := by
  induction ss with
  | nil => intro d h; exact absurd rfl h
  | cons s rest ih =>
      intro d _
      cases rest with
      | nil =>
          simp only [cumSums, sumNat]
          norm_num
      | cons s2 rest2 =>
          rw [cumSums, cumSums]
          rw [show ((d + (s : Int)) :: (d + (s : Int) + (s2 : Int)) ::
              cumSums (d + (s : Int) + (s2 : Int)) rest2).getLast? =
              ((d + (s : Int) + (s2 : Int)) ::
              cumSums (d + (s : Int) + (s2 : Int)) rest2).getLast? from
            List.getLast?_cons_cons]
          have := ih (d + (s : Int)) (by simp)
          rw [cumSums] at this
          rw [this]
          refine congrArg some ?_
          simp only [sumNat]
          ring

theorem progressDownloads_map_progress (total : Int) (l : List Int) :
    progressDownloads (l.map (fun x => DlEv.progress x total)) = l := by
  induction l with
  | nil => rfl
  | cons x rest ih => simp only [progressDownloads, List.map, List.filterMap] at ih ⊢; rw [ih]

theorem completes_map_progress (total : Int) (l : List Int) :
    completes (l.map (fun x => DlEv.progress x total)) = [] := by
  induction l with
  | nil => rfl
  | cons x rest ih => simp only [completes, List.map, List.filterMap] at ih ⊢; rw [ih]

theorem completes_of_all_progress (evs : List DlEv)
    (h : ∀ ev ∈ evs, ev.isProgress = true) : completes evs = [] := by
  induction evs with
  | nil => rfl
  | cons ev rest ih =>
      cases ev with
      | progress d t =>
          simp only [completes, List.filterMap] at ih ⊢
          exact ih (fun x hx => h x (List.mem_cons_of_mem _ hx))
      | complete d t =>
          exact absurd (h (DlEv.complete d t) (List.mem_cons_self _ _))
            (by simp [DlEv.isProgress])

theorem runBody_shape (env : DlEnv) :
    (∃ e, (runBody env).err = some e
        ∧ (e = PyErr.connectErr ∨ e = PyErr.statusErr ∨ e = PyErr.valueErr
            ∨ e = PyErr.mkdirErr ∨ e = PyErr.openErr
            ∨ e = PyErr.writeErr ∨ e = PyErr.readErr)
        ∧ (e = PyErr.valueErr → headerTotal env.contentLength = none)
        ∧ ∀ ev ∈ (runBody env).events, ev.isProgress = true)
    ∨ (∃ total, headerTotal env.contentLength = some total
        ∧ (streamLoop total env.stream 0).err = none
        ∧ runBody env = ⟨(streamLoop total env.stream 0).events ++
              [DlEv.complete (streamLoop total env.stream 0).written total],
            (streamLoop total env.stream 0).written, none⟩) := by
  unfold runBody
  split
  · exact Or.inl ⟨PyErr.connectErr, rfl, by simp, fun he => PyErr.noConfusion he,
      by intro ev hev; simp at hev⟩
  split
  · exact Or.inl ⟨PyErr.statusErr, rfl, by simp, fun he => PyErr.noConfusion he,
      by intro ev hev; simp at hev⟩
  split
  · rename_i hTotalNone
    exact Or.inl ⟨PyErr.valueErr, rfl, by simp, fun _ => hTotalNone,
      by intro ev hev; simp at hev⟩
  rename_i total hTotal
  split
  · exact Or.inl ⟨PyErr.mkdirErr, rfl, by simp, fun he => PyErr.noConfusion he,
      by intro ev hev; simp at hev⟩
  split
  · exact Or.inl ⟨PyErr.openErr, rfl, by simp, fun he => PyErr.noConfusion he,
      by intro ev hev; simp at hev⟩
  split
  · rename_i e hLoop
    refine Or.inl ⟨e, rfl, ?_, ?_, ?_⟩
    · rcases streamLoop_err_cases total env.stream 0 e hLoop with rfl | rfl <;> simp
    · rcases streamLoop_err_cases total env.stream 0 e hLoop with rfl | rfl <;>
        exact fun he => PyErr.noConfusion he
    · intro ev hev
      simp only at hev
      exact streamLoop_events_all_progress total env.stream 0 ev hev
  · rename_i hLoop
    exact Or.inr ⟨total, hTotal, hLoop, rfl⟩

theorem runBody_ok_shape (env : DlEnv) (h : (runBody env).err = none) :
    ∃ total, headerTotal env.contentLength = some total ∧
      (streamLoop total env.stream 0).err = none ∧
      runBody env = ⟨(streamLoop total env.stream 0).events ++
          [DlEv.complete (streamLoop total env.stream 0).written total],
        (streamLoop total env.stream 0).written, none⟩ := by
  rcases runBody_shape env with ⟨e, he, _, _, _⟩ | hok
  · rw [he] at h; simp at h
  · exact hok

theorem runBody_events_all_progress (env : DlEnv) (e : PyErr)
    (h : (runBody env).err = some e) :
    ∀ ev ∈ (runBody env).events, ev.isProgress = true := by
  rcases runBody_shape env with ⟨e2, _, _, _, hprog⟩ | ⟨total, _, _, heq⟩
  · exact hprog
  · rw [heq] at h; simp at h

theorem runBody_err_isException (env : DlEnv) (e : PyErr)
    (h : (runBody env).err = some e) : e.isException = true := by
  rcases runBody_shape env with ⟨e2, he2, hcases, _, _⟩ | ⟨total, _, _, heq⟩
  · rw [he2] at h
    simp only [Option.some_inj] at h
    subst h
    rcases hcases with rfl | rfl | rfl | rfl | rfl | rfl | rfl <;> rfl
  · rw [heq] at h; simp at h

theorem downloadFile_events (env : DlEnv) :
    (downloadFile env).events = (runBody env).events := by
  unfold downloadFile
  split
  · rfl
  · split <;> rfl

theorem downloadFile_raised_none (env : DlEnv) :
    (downloadFile env).raised = none := by
  unfold downloadFile
  split
  · rfl
  · rename_i e herr
    rw [if_pos (runBody_err_isException env e herr)]

theorem downloadFile_reported_iff (env : DlEnv) :
    (downloadFile env).reported = true ↔ (runBody env).err ≠ none := by
  unfold downloadFile
  split
  · rename_i herr; simp [herr]
  · rename_i e herr
    rw [if_pos (runBody_err_isException env e herr)]
    simp [herr]

theorem downloadFile_written (env : DlEnv) :
    (downloadFile env).written = (runBody env).written := by
  unfold downloadFile
  split
  · rfl
  · split <;> rfl

theorem runBody_events_total_eq (env : DlEnv) (total : Int)
    (hT : headerTotal env.contentLength = some total) :
    ∀ ev ∈ (runBody env).events, ev.total = total := by
  unfold runBody
  split
  · intro ev hev; simp at hev
  split
  · intro ev hev; simp at hev
  split
  · rename_i hnone
    rw [hT] at hnone
    cases hnone
  rename_i total2 hT2
  rw [hT] at hT2
  obtain rfl : total2 = total := (Option.some_inj.mp hT2).symm
  split
  · intro ev hev; simp at hev
  split
  · intro ev hev; simp at hev
  split
  · rename_i e hLoop
    intro ev hev
    simp only at hev
    exact streamLoop_events_total _ env.stream 0 ev hev
  · rename_i hLoop
    intro ev hev
    simp only [List.mem_append, List.mem_singleton] at hev
    rcases hev with hev | rfl
    · exact streamLoop_events_total _ env.stream 0 ev hev
    · rfl

theorem runBody_events_nil_of_header_none (env : DlEnv)
    (hT : headerTotal env.contentLength = none) :
    (runBody env).events = [] := by
  unfold runBody
  split
  · rfl
  split
  · rfl
  split
  · rfl
  · rename_i total hT2
    rw [hT] at hT2
    cases hT2

theorem runBody_err_ne_none_of_header_none (env : DlEnv)
    (hT : headerTotal env.contentLength = none) :
    (runBody env).err ≠ none := by
  rcases runBody_shape env with ⟨e, he, _, _, _⟩ | ⟨total, hTotal, _, _⟩
  · rw [he]; simp
  · rw [hT] at hTotal; cases hTotal

theorem runBody_err_ne_valueErr_of_header (env : DlEnv) (total : Int)
    (hT : headerTotal env.contentLength = some total) :
    (runBody env).err ≠ some PyErr.valueErr := by
  rcases runBody_shape env with ⟨e, he, _, hval, _⟩ | ⟨total2, _, _, heq⟩
  · intro habs
    rw [he] at habs
    obtain rfl : e = PyErr.valueErr := Option.some_inj.mp habs
    rw [hval rfl] at hT
    cases hT
  · intro habs
    rw [heq] at habs
    cases habs

/-! ## Lemmas about the tracking set -/

theorem getLastQ_cons_ne {α : Type} (a : α) {l : List α} (h : l ≠ []) :
    (a :: l).getLast? = l.getLast? := by
  cases l with
  | nil => exact absurd rfl h
  | cons b t => exact List.getLast?_cons_cons

theorem mem_applyEvents (i : Nat) :
    ∀ (evs : List TaskEv) (s : Finset Nat),
      i ∈ applyEvents s evs ↔
        (match (evs.filter (touches i)).getLast? with
          | some (TaskEv.start _) => True
          | some (TaskEv.exit _ _) => False
          | none => i ∈ s) := by
  intro evs
  induction evs with
  | nil => intro s; simp [applyEvents]
  | cons e rest ih =>
      intro s
      have step1 : applyEvents s (e :: rest) = applyEvents (stepTasks s e) rest := rfl
      rw [step1]
      by_cases ht : touches i e = true
      · rw [List.filter_cons_of_pos ht]
        by_cases hr : rest.filter (touches i) = []
        · rw [ih (stepTasks s e), hr]
          cases e with
          | start j =>
              have hij : i = j := by simpa [touches] using ht
              subst hij
              simp [stepTasks]
          | exit j o =>
              have hij : i = j := by simpa [touches] using ht
              subst hij
              simp [stepTasks]
        · rw [getLastQ_cons_ne e hr, ih (stepTasks s e)]
          cases hx : (rest.filter (touches i)).getLast? with
          | none => exact absurd (List.getLast?_eq_none_iff.mp hx) hr
          | some x => cases x <;> simp
      · rw [List.filter_cons_of_neg (by simpa using ht), ih (stepTasks s e)]
        cases hfr : (rest.filter (touches i)).getLast? with
        | some x => cases x <;> simp
        | none =>
            simp only []
            cases e with
            | start j =>
                have hij : ¬ i = j := by simpa [touches] using ht
                simp [stepTasks, Finset.mem_insert, hij]
            | exit j o =>
                have hij : ¬ i = j := by simpa [touches] using ht
                simp [stepTasks, Finset.mem_erase, hij]

/-! ## Claim theorems for the download coordinator -/

/-- C1: for every download run that completes without error, the progress
callbacks have strictly increasing downloaded values, the final progress value
equals the bytes written to the destination file, the completion callback is
invoked exactly once (and last), and it reports downloaded equal to totalBytes
whenever the Content-Length total was known and accurate.  The positivity
hypothesis reflects that aiohttp's iter_chunked never yields an empty chunk. -/
theorem download_success_callback_contract (env : DlEnv)
    (hok : (runBody env).err = none)
    (hpos : ∀ s wok, StreamItem.chunk s wok ∈ env.stream → 0 < s) :
    List.Chain' (· < ·) (progressDownloads (downloadFile env).events)
    ∧ (∀ w, (progressDownloads (downloadFile env).events).getLast? = some w →
        w = (downloadFile env).written)
    ∧ completes (downloadFile env).events =
        [((downloadFile env).written, dlTotal env)]
    ∧ (downloadFile env).events.getLast? =
        some (DlEv.complete (downloadFile env).written (dlTotal env))
    ∧ (∀ t, headerTotal env.contentLength = some t →
        t = (downloadFile env).written →
        completes (downloadFile env).events = [(t, t)]) := by
  obtain ⟨total, hTotal, hLoop, hShape⟩ := runBody_ok_shape env hok
  obtain ⟨ss, hss⟩ := streamLoop_err_none_shape total env.stream 0 hLoop
  have hLoopEq : streamLoop total env.stream 0 =
      ⟨(cumSums 0 ss).map (fun x => DlEv.progress x total), 0 + sumNat ss,
        none⟩ := by
    rw [hss]; exact streamLoop_goodChunks total ss 0
  have hEvents : (downloadFile env).events =
      (cumSums 0 ss).map (fun x => DlEv.progress x total)
        ++ [DlEv.complete (0 + sumNat ss) total] := by
    rw [downloadFile_events, hShape]
    simp only [hLoopEq]
  have hWritten : (downloadFile env).written = 0 + sumNat ss := by
    rw [downloadFile_written, hShape]
    simp only [hLoopEq]
  have hTotalD : dlTotal env = total := by simp [dlTotal, hTotal]
  have hPD : progressDownloads (downloadFile env).events = cumSums 0 ss := by
    rw [hEvents, progressDownloads, List.filterMap_append,
      ← progressDownloads, progressDownloads_map_progress]
    simp [progressDownloads]
  have hPos2 : ∀ s ∈ ss, 0 < s := by
    intro s hs
    refine hpos s true ?_
    rw [hss, goodChunks]
    exact List.mem_map.mpr ⟨s, hs, rfl⟩
  have hComp : completes (downloadFile env).events =
      [((downloadFile env).written, dlTotal env)] := by
    rw [hEvents, completes, List.filterMap_append, ← completes,
      completes_map_progress, hWritten, hTotalD]
    simp [completes]
  refine ⟨?_, ?_, hComp, ?_, ?_⟩
  · rw [hPD]
    exact cumSums_chain ss 0 hPos2
  · intro w hw
    rw [hPD] at hw
    cases hss2 : ss with
    | nil => rw [hss2] at hw; simp [cumSums] at hw
    | cons s0 rest =>
        rw [hss2, cumSums_getLastQ (s0 :: rest) 0 (by simp)] at hw
        rw [hWritten, hss2]
        exact (Option.some_inj.mp hw).symm
  · rw [hEvents, hWritten, hTotalD]
    simp
  · intro t ht hteq
    rw [hComp, hTotalD]
    obtain rfl : t = total := Option.some_inj.mp (ht.symm.trans hTotal)
    rw [hteq]

/-- Witness for C1 at a concrete successful run: Content-Length 7, two chunks
of 3 and 4 bytes. -/
theorem download_success_callback_contract_witness :
    List.Chain' (· < ·) (progressDownloads (downloadFile envOk).events)
    ∧ completes (downloadFile envOk).events =
        [((downloadFile envOk).written, dlTotal envOk)] :=
  ⟨(download_success_callback_contract envOk rfl (by
      intro s wok h
      simp only [envOk, List.mem_cons, List.not_mem_nil, or_false] at h
      rcases h with h | h <;> (injection h with h1 h2; omega))).1,
   (download_success_callback_contract envOk rfl (by
      intro s wok h
      simp only [envOk, List.mem_cons, List.not_mem_nil, or_false] at h
      rcases h with h | h <;> (injection h with h1 h2; omega))).2.2.1⟩

/-- C2: the tracking set is empty before any download starts, every started
download's task is registered by its start event, and for any schedule in
which each started task later exits exactly once (with any outcome: success,
failure, or cancellation, since the finally clause discards unconditionally),
the set returns to empty, so active_downloads returns to 0. -/
theorem tracking_set_settles_empty (evs : List TaskEv)
    (h : ∀ i : Nat, evs.filter (touches i) = []
        ∨ ∃ o, evs.filter (touches i) = [TaskEv.start i, TaskEv.exit i o]) :
    activeDownloads initialTasks = 0
    ∧ (∀ (s : Finset Nat) (i : Nat), i ∈ stepTasks s (TaskEv.start i))
    ∧ applyEvents initialTasks evs = ∅
    ∧ activeDownloads (applyEvents initialTasks evs) = 0 := by
  have hEmpty : applyEvents initialTasks evs = ∅ := by
    refine Finset.eq_empty_iff_forall_not_mem.mpr (fun i => ?_)
    rw [mem_applyEvents i evs initialTasks]
    rcases h i with hf | ⟨o, hf⟩
    · rw [hf]
      simp [initialTasks]
    · rw [hf]
      simp
  exact ⟨rfl, fun s i => Finset.mem_insert_self i s, hEmpty,
    by rw [hEmpty]; rfl⟩

/-- Witness for C2 on a concrete interleaved schedule of two downloads, one
succeeding and one failing. -/
theorem tracking_set_settles_empty_witness :
    applyEvents initialTasks demoSchedule = ∅ :=
  (tracking_set_settles_empty demoSchedule (fun i => by
    match i with
    | 0 => exact Or.inr ⟨Outcome.success, by decide⟩
    | 1 => exact Or.inr ⟨Outcome.failure, by decide⟩
    | (n + 2) => exact Or.inl (by simp [demoSchedule, touches]))).2.2.1

/-- C3: any error raised in the download task body is caught inside the task
(nothing escapes the task boundary), the finally clause removes the task from
the coordinator's tracking set regardless of outcome, and failure is reported
only through the side channel (the printed report occurs exactly when the body
erred). -/
theorem download_errors_suppressed (env : DlEnv) (tasks : Finset Nat)
    (tid : Nat) :
    (downloadTask env tasks tid).1.raised = none
    ∧ (downloadTask env tasks tid).2 = tasks.erase tid
    ∧ ((downloadTask env tasks tid).1.reported = true ↔
        (runBody env).err ≠ none) :=
  ⟨downloadFile_raised_none env, rfl, downloadFile_reported_iff env⟩

/-- C10: for every download run whose body errors at any point, the completion
callback is invoked zero times and the event trace consists only of the
progress callbacks issued before the error. -/
theorem download_error_zero_completions (env : DlEnv) (e : PyErr)
    (herr : (runBody env).err = some e) :
    completes (downloadFile env).events = []
    ∧ (∀ ev ∈ (downloadFile env).events, ev.isProgress = true) := by
  have hprog := runBody_events_all_progress env e herr
  rw [downloadFile_events]
  exact ⟨completes_of_all_progress _ hprog, hprog⟩

/-- Witness for C10 at a download rejected with HTTP 404. -/
theorem download_error_zero_completions_witness :
    completes (downloadFile envNotFound).events = [] :=
  (download_error_zero_completions envNotFound PyErr.statusErr rfl).1

/-- C8 counterexample: a response whose Content-Length header is present but
unparsable ("abc") does not proceed with totalBytes = 0; int() raises
ValueError, the download reports an error, and no byte is ever streamed. -/
theorem unparsable_content_length_is_error :
    pyIntOfStr "abc" = none
    ∧ (runBody envBadHeader).err = some PyErr.valueErr
    ∧ (downloadFile envBadHeader).reported = true
    ∧ (downloadFile envBadHeader).events = [] := by
  refine ⟨by decide, by decide, by decide, by decide⟩

/-- C8 amended: when the Content-Length header is absent, the download
proceeds with totalBytes = 0 and this is not treated as an error (no ValueError
arises and every callback carries total 0); when the header is present but
unparsable as an integer, int() raises ValueError, so the download fails with
a reported error and no callback is invoked. -/
theorem content_length_fallback_and_unparsable (env : DlEnv) :
    (env.contentLength = none →
        (runBody env).err ≠ some PyErr.valueErr
        ∧ ∀ ev ∈ (downloadFile env).events, ev.total = 0)
    ∧ (∀ s, env.contentLength = some s → pyIntOfStr s = none →
        (downloadFile env).reported = true
        ∧ (downloadFile env).events = []) := by
  constructor
  · intro hcl
    have hT : headerTotal env.contentLength = some 0 := by rw [hcl]; rfl
    refine ⟨runBody_err_ne_valueErr_of_header env 0 hT, ?_⟩
    rw [downloadFile_events]
    exact runBody_events_total_eq env 0 hT
  · intro s hcl hbad
    have hT : headerTotal env.contentLength = none := by
      rw [hcl]
      exact hbad
    constructor
    · exact (downloadFile_reported_iff env).mpr
        (runBody_err_ne_none_of_header_none env hT)
    · rw [downloadFile_events]
      exact runBody_events_nil_of_header_none env hT

/-- Witness for the amended C8: an absent header on a successful run, and the
unparsable header "abc" on the failing run. -/
theorem content_length_fallback_and_unparsable_witness :
    (runBody envNoHeader).err ≠ some PyErr.valueErr
    ∧ (downloadFile envBadHeader).reported = true
    ∧ (downloadFile envBadHeader).events = [] :=
  ⟨((content_length_fallback_and_unparsable envNoHeader).1 rfl).1,
   ((content_length_fallback_and_unparsable envBadHeader).2 "abc" rfl
      (by decide)).1,
   ((content_length_fallback_and_unparsable envBadHeader).2 "abc" rfl
      (by decide)).2⟩

/-! ## Lemmas about JSON equality -/

mutual

theorem Json.eq_of_beq : ∀ (a b : Json), Json.beq a b = true → a = b
  | a, b => by
    cases a <;> cases b <;> intro h <;>
      simp only [Json.beq] at h
    all_goals try exact Bool.noConfusion h
    case null.null => rfl
    case bool.bool => simp_all
    case num.num => simp_all
    case str.str => simp_all
    case arr.arr xs ys => exact congrArg Json.arr (Json.eqList_of_beq xs ys h)
    case obj.obj xs ys => exact congrArg Json.obj (Json.eqKVs_of_beq xs ys h)

theorem Json.eqList_of_beq : ∀ (xs ys : List Json),
    Json.beqList xs ys = true → xs = ys
  | [], [], _ => rfl
  | x :: xs, y :: ys, h => by
    simp only [Json.beqList, Bool.and_eq_true] at h
    rw [Json.eq_of_beq x y h.1, Json.eqList_of_beq xs ys h.2]
  | [], _ :: _, h => by simp [Json.beqList] at h
  | _ :: _, [], h => by simp [Json.beqList] at h

theorem Json.eqKVs_of_beq : ∀ (xs ys : List (String × Json)),
    Json.beqKVs xs ys = true → xs = ys
  | [], [], _ => rfl
  | (k, v) :: xs, (k2, v2) :: ys, h => by
    simp only [Json.beqKVs, Bool.and_eq_true] at h
    obtain ⟨⟨h1, h2⟩, h3⟩ := h
    rw [Json.eq_of_beq v v2 h2, Json.eqKVs_of_beq xs ys h3]
    simp_all

end

mutual

theorem Json.beq_refl : ∀ (a : Json), Json.beq a a = true
  | Json.null => rfl
  | Json.bool b => by simp [Json.beq]
  | Json.num n => by simp [Json.beq]
  | Json.str s => by simp [Json.beq]
  | Json.arr xs => Json.beqList_refl xs
  | Json.obj xs => Json.beqKVs_refl xs

theorem Json.beqList_refl : ∀ (xs : List Json), Json.beqList xs xs = true
  | [] => rfl
  | x :: xs => by
    simp only [Json.beqList, Bool.and_eq_true]
    exact ⟨Json.beq_refl x, Json.beqList_refl xs⟩

theorem Json.beqKVs_refl : ∀ (xs : List (String × Json)),
    Json.beqKVs xs xs = true
  | [] => rfl
  | (k, v) :: xs => by
    simp only [Json.beqKVs, Bool.and_eq_true]
    exact ⟨⟨by simp, Json.beq_refl v⟩, Json.beqKVs_refl xs⟩

end

/-! ## Lemmas about the search client -/

theorem exceptBind_ok {α β : Type} (a : α) (f : α → Except Exc β) :
    (Except.ok a >>= f : Except Exc β) = f a := rfl

theorem exceptBind_err {α β : Type} (e : Exc) (f : α → Except Exc β) :
    ((Except.error e : Except Exc α) >>= f) = Except.error e := rfl

theorem exceptPure {α : Type} (a : α) :
    (pure a : Except Exc α) = Except.ok a := rfl

theorem findVsix_mkFiles (files : List (String × String)) :
    findVsix (files.map mkFile) =
      Except.ok ((files.find? (fun f => f.1 == vsixAssetType)).map
        (fun f => Json.str f.2)) := by
  induction files with
  | nil => rfl
  | cons f rest ih =>
      by_cases h : (f.1 == vsixAssetType) = true
      · simp only [List.map, findVsix, mkFile, pyGetItem, lookupKey,
          String.reduceEq, reduceIte, exceptBind_ok, exceptPure, jsonEqStr,
          List.find?, h, if_pos, Option.map]
      · have h2 : (f.1 == vsixAssetType) = false := by simpa using h
        simp only [List.map, findVsix, mkFile, pyGetItem, lookupKey,
          String.reduceEq, reduceIte, exceptBind_ok, exceptPure, jsonEqStr,
          List.find?, h2, Bool.false_eq_true, if_false, ih]

theorem parseRaw_single_entry_ok (pubName extName vstr : String)
    (files : List (String × String)) (rest : List Json) (du : Option Json)
    (hfv : findVsix (files.map mkFile) = Except.ok du) :
    parseRaw (mkResponse [mkEntry pubName extName vstr files rest]) =
      Except.ok [⟨Json.str pubName, Json.str "marketplace.visualstudio.com",
        Json.str extName, Json.str "N/A", Json.str "Unknown",
        Json.str "No description available.", Json.str vstr, du⟩] := by
  simp only [parseRaw, parseOne, mkResponse, mkEntry, mkVersion, pyGetItem,
    pyIndex, pyGetDefault, pyIter, lookupKey, List.mapM, List.mapM.loop,
    List.get?, String.reduceEq, reduceIte, exceptBind_ok, exceptBind_err,
    exceptPure, Option.getD, hfv, List.reverse, List.reverseAux]

theorem parseResults_single_entry (pubName extName vstr : String)
    (files : List (String × String)) (rest : List Json) :
    parseResults (mkResponse [mkEntry pubName extName vstr files rest]) =
      Except.ok [⟨Json.str pubName, Json.str "marketplace.visualstudio.com",
        Json.str extName, Json.str "N/A", Json.str "Unknown",
        Json.str "No description available.", Json.str vstr,
        (files.find? (fun f => f.1 == vsixAssetType)).map
          (fun f => Json.str f.2)⟩] := by
  have hfv := findVsix_mkFiles files
  rw [parseResults, parseRaw_single_entry_ok pubName extName vstr files rest
    _ hfv]

theorem callApi_ok (flagIn : Bool) (p : QueryPayload) (status : Nat) (d : Json)
    (h2xx : 200 ≤ status ∧ status < 300) :
    callApi flagIn p ⟨false, NetResult.ok status d⟩ = Except.ok (some d) := by
  unfold callApi callApiRaw
  simp [h2xx]

/-! ## Lemmas about the screen's result dictionary -/

theorem get_set_found (k : Json) (v : Extension) :
    ∀ d : List (Json × Extension), d.any (fun p => Json.beq p.1 k) = true →
      pyDictGet (d.map (fun p => if Json.beq p.1 k then (p.1, v) else p)) k =
        some v := by
  intro d
  induction d with
  | nil => intro h; simp at h
  | cons p rest ih =>
      intro hany
      by_cases hp : Json.beq p.1 k = true
      · simp only [List.map, pyDictGet, List.find?, hp, if_pos]
        simp [hp]
      · have hrest : rest.any (fun p => Json.beq p.1 k) = true := by
          simpa [List.any_cons, hp] using hany
        simp only [List.map, pyDictGet, List.find?] at ih ⊢
        rw [if_neg hp]
        simp only [hp, Bool.false_eq_true, reduceIte]
        exact ih hrest

theorem get_set_other (k n : Json) (v : Extension)
    (hkn : Json.beq k n = false) :
    ∀ d : List (Json × Extension),
      pyDictGet (d.map (fun p => if Json.beq p.1 k then (p.1, v) else p)) n =
        pyDictGet d n := by
  intro d
  induction d with
  | nil => rfl
  | cons p rest ih =>
      by_cases hp : Json.beq p.1 k = true
      · obtain rfl : p.1 = k := Json.eq_of_beq p.1 k hp
        simp only [List.map, pyDictGet, List.find?, hp, if_pos, hkn,
          Bool.false_eq_true, reduceIte] at ih ⊢
        exact ih
      · have hp2 : Json.beq p.1 k = false := by simpa using hp
        by_cases hpn : Json.beq p.1 n = true
        · simp only [List.map, pyDictGet, List.find?, hp2,
            Bool.false_eq_true, reduceIte, hpn]
        · have hpn2 : Json.beq p.1 n = false := by simpa using hpn
          simp only [List.map, pyDictGet, List.find?, hp2, hpn2,
            Bool.false_eq_true, reduceIte] at ih ⊢
          exact ih

theorem find_none_of_any_false (k : Json) :
    ∀ d : List (Json × Extension),
      d.any (fun p => Json.beq p.1 k) = false →
      d.find? (fun p => Json.beq p.1 k) = none := by
  intro d
  induction d with
  | nil => intro _; rfl
  | cons p rest ih =>
      intro h
      simp only [List.any_cons, Bool.or_eq_false_iff] at h
      simp only [List.find?, h.1, Bool.false_eq_true, reduceIte]
      exact ih h.2

theorem pyDictGet_pyDictSet (d : List (Json × Extension)) (k : Json)
    (v : Extension) (n : Json) :
    pyDictGet (pyDictSet d k v) n =
      if Json.beq k n = true then some v else pyDictGet d n := by
  by_cases hkn : Json.beq k n = true
  · obtain rfl : k = n := Json.eq_of_beq k n hkn
    rw [if_pos hkn]
    unfold pyDictSet
    by_cases hany : d.any (fun p => Json.beq p.1 k) = true
    · rw [if_pos hany]
      exact get_set_found k v d hany
    · have hany2 : d.any (fun p => Json.beq p.1 k) = false := by simpa using hany
      rw [if_neg hany]
      unfold pyDictGet
      rw [List.find?_append, find_none_of_any_false k d hany2]
      simp only [Option.none_or, List.find?, Json.beq_refl k, if_pos]
      rfl
  · have hkn2 : Json.beq k n = false := by simpa using hkn
    rw [if_neg hkn]
    unfold pyDictSet
    by_cases hany : d.any (fun p => Json.beq p.1 k) = true
    · rw [if_pos hany]
      exact get_set_other k n v hkn2 d
    · rw [if_neg hany]
      unfold pyDictGet
      rw [List.find?_append]
      simp only [List.find?, hkn2, Bool.false_eq_true, reduceIte,
        Option.or_none]

theorem populate_dict_get (rs : List Extension) :
    ∀ (st : ScreenState) (n : Json),
      pyDictGet (rs.foldl populateStep st).dict n =
        (match (rs.filter (fun e => Json.beq e.name n)).getLast? with
          | some e => some e
          | none => pyDictGet st.dict n) := by
  induction rs with
  | nil => intro st n; rfl
  | cons e rest ih =>
      intro st n
      rw [List.foldl_cons, ih]
      by_cases hen : Json.beq e.name n = true
      · have hfil : List.filter (fun e2 => Json.beq e2.name n) (e :: rest) =
            e :: List.filter (fun e2 => Json.beq e2.name n) rest := by
          simp [List.filter_cons, hen]
        rw [hfil]
        by_cases hr : rest.filter (fun e2 => Json.beq e2.name n) = []
        · rw [hr]
          have hstep : pyDictGet (populateStep st e).dict n = some e := by
            show pyDictGet (pyDictSet st.dict e.name e) n = some e
            rw [pyDictGet_pyDictSet, if_pos hen]
          simp [hstep]
        · rw [getLastQ_cons_ne e hr]
          cases hx : (rest.filter (fun e2 => Json.beq e2.name n)).getLast? with
          | none => exact absurd (List.getLast?_eq_none_iff.mp hx) hr
          | some x => rfl
      · have hen2 : Json.beq e.name n = false := by simpa using hen
        have hfil : List.filter (fun e2 => Json.beq e2.name n) (e :: rest) =
            List.filter (fun e2 => Json.beq e2.name n) rest := by
          simp [List.filter_cons, hen2]
        rw [hfil]
        have hstep : pyDictGet (populateStep st e).dict n =
            pyDictGet st.dict n := by
          show pyDictGet (pyDictSet st.dict e.name e) n = pyDictGet st.dict n
          rw [pyDictGet_pyDictSet, if_neg (by simp [hen2])]
        cases hx : (rest.filter (fun e2 => Json.beq e2.name n)).getLast? with
        | none => simp [hstep]
        | some x => rfl

theorem populate_mounted (rs : List Extension) :
    ∀ st : ScreenState,
      (rs.foldl populateStep st).mounted =
        (rs.map Extension.name).foldl
          (fun acc k =>
            if acc.any (fun m => Json.beq m k) then acc else acc ++ [k])
          st.mounted := by
  induction rs with
  | nil => intro st; rfl
  | cons e rest ih =>
      intro st
      rw [List.foldl_cons, ih, List.map_cons, List.foldl_cons]
      rfl

/-! ## Claim theorems for the search client and screen -/

/-- C4: every search clears the handler's stop flag before issuing the request
(the outcome of _call_api never depends on the flag state at call time), and
when stop() is called while the request is in flight and the response's
arrival is observed, the search returns the empty record list without raising
any error. -/
theorem search_stop_cancellation (flagIn : Bool) (env : SearchEnv)
    (payload : QueryPayload) (query : String) (byPublisher : Bool)
    (pageSize pageNumber : Nat) :
    callApi flagIn payload env = callApi false payload env
    ∧ (env.stopDuring = true →
        ∀ status body, env.net = NetResult.ok status body →
        searchExtensions query byPublisher pageSize pageNumber flagIn env =
          Except.ok []) := by
  refine ⟨rfl, ?_⟩
  intro hstop status body hnet
  unfold searchExtensions callApi callApiRaw
  rw [hnet, hstop]
  simp [Exc.isHttpxRequestError]

/-- Witness for C4: a search stopped mid-flight with a well-formed response
arriving returns the empty list. -/
theorem search_stop_cancellation_witness :
    searchExtensions "query" false 10 1 true envStopped = Except.ok [] :=
  (search_stop_cancellation true envStopped
    (searchPayload "query" false 10 1) "query" false 10 1).2 rfl 200
    (Json.obj [("results", Json.arr [])]) rfl

/-- C5 counterexample: the empty-object response is missing the results key,
yet searching against it returns the empty list with no parsing error, because
the empty dict is falsy and search_extensions short-circuits on falsy data. -/
theorem empty_object_response_returns_ok_nil :
    pyGetItem (Json.obj []) "results" = Except.error Exc.keyError
    ∧ searchExtensions "q" false 10 1 false envEmptyObj = Except.ok [] :=
  ⟨rfl, rfl⟩

/-- C5 amended: for every truthy response body in which the expected structure
is absent at some point via a missing key or an out-of-range index (the raw
parse raises KeyError or IndexError), the whole call fails with ValueError -
the parsing error, distinct from the wrapped network failure and the status
error - and returns no record list at all; falsy response bodies (such as the
empty JSON object) are the exception and yield the empty record list without
error. -/
theorem truthy_malformed_response_parse_error (d : Json)
    (htruthy : truthy d = true)
    (habsent : parseRaw d = Except.error Exc.keyError
        ∨ parseRaw d = Except.error Exc.indexError)
    (query : String) (byPublisher : Bool) (pageSize pageNumber : Nat)
    (flagIn : Bool) (status : Nat) (h2xx : 200 ≤ status ∧ status < 300) :
    searchExtensions query byPublisher pageSize pageNumber flagIn
        ⟨false, NetResult.ok status d⟩ = Except.error Exc.valueError
    ∧ Exc.valueError ≠ Exc.wrappedHttpError
    ∧ Exc.valueError ≠ Exc.httpStatusError
    ∧ ∀ l, searchExtensions query byPublisher pageSize pageNumber flagIn
        ⟨false, NetResult.ok status d⟩ ≠ Except.ok l := by
  have hc := callApi_ok flagIn
    (searchPayload query byPublisher pageSize pageNumber) status d h2xx
  have hmain : searchExtensions query byPublisher pageSize pageNumber flagIn
      ⟨false, NetResult.ok status d⟩ = Except.error Exc.valueError := by
    unfold searchExtensions
    rw [hc]
    simp only [htruthy, if_pos]
    unfold parseResults
    rcases habsent with h | h <;> rw [h] <;> simp
  refine ⟨hmain, by simp, by simp, ?_⟩
  intro l
  rw [hmain]
  simp

/-- Witness for the amended C5: a truthy object without the results key makes
the search fail with ValueError. -/
theorem truthy_malformed_response_parse_error_witness :
    searchExtensions "q" false 10 1 false envNoResults =
      Except.error Exc.valueError :=
  (truthy_malformed_response_parse_error respNoResults rfl (Or.inl rfl)
    "q" false 10 1 false 200 (by decide)).1

/-- C6: for every well-formed response entry, the search extracts the version
string from the first element of the versions array only (the later entries
are arbitrary JSON and do not influence the result), and the download URL is
the source of the first file whose assetType equals the VSIX package asset
type, or stays unset when no such file exists. -/
theorem first_version_vsix_download_url (pubName extName vstr : String)
    (files : List (String × String)) (rest : List Json) (query : String)
    (byPublisher : Bool) (pageSize pageNumber : Nat) (flagIn : Bool) :
    searchExtensions query byPublisher pageSize pageNumber flagIn
        ⟨false, NetResult.ok 200
          (mkResponse [mkEntry pubName extName vstr files rest])⟩ =
      Except.ok [⟨Json.str pubName, Json.str "marketplace.visualstudio.com",
        Json.str extName, Json.str "N/A", Json.str "Unknown",
        Json.str "No description available.", Json.str vstr,
        (files.find? (fun f => f.1 == vsixAssetType)).map
          (fun f => Json.str f.2)⟩] := by
  have hc := callApi_ok flagIn
    (searchPayload query byPublisher pageSize pageNumber) 200
    (mkResponse [mkEntry pubName extName vstr files rest]) (by decide)
  unfold searchExtensions
  rw [hc]
  have htr : truthy (mkResponse [mkEntry pubName extName vstr files rest]) =
      true := rfl
  simp only [htr, if_pos]
  exact parseResults_single_entry pubName extName vstr files rest

/-- C7: the payload built for a search contains exactly one filter criterion,
with filter code 4 for a publisher search and 10 for a name search, pagination
from the arguments, sortBy 0, sortOrder 0, an empty assetTypes list, and flags
514; for the same query the two payloads differ only in the filterType of the
first criterion. -/
theorem query_payload_shape (query : String) (pageSize pageNumber : Nat) :
    searchPayload query true pageSize pageNumber =
      ⟨[⟨[⟨4, query⟩], pageNumber, pageSize, 0, 0⟩], [], 514⟩
    ∧ searchPayload query false pageSize pageNumber =
      ⟨[⟨[⟨10, query⟩], pageNumber, pageSize, 0, 0⟩], [], 514⟩
    ∧ (searchPayload query true pageSize pageNumber).filters.length = 1
    ∧ ((searchPayload query true pageSize pageNumber).filters.map
        (fun f => f.criteria.length)) = [1]
    ∧ setFirstFilterType (searchPayload query true pageSize pageNumber) 10 =
        searchPayload query false pageSize pageNumber
    ∧ setFirstFilterType (searchPayload query false pageSize pageNumber) 4 =
        searchPayload query true pageSize pageNumber :=
  ⟨rfl, rfl, rfl, rfl, rfl, rfl⟩

/-- C9 counterexample: with two same-named results, the mounted widget is the
first occurrence, but the dict record handed back on the button press is the
last parsed record, which differs from the first. -/
theorem duplicate_name_hands_last_record :
    onDownloadPressed (populateExtensions [exA, exB]) (Json.str "dup") =
      some exB
    ∧ (populateExtensions [exA, exB]).mounted = [Json.str "dup"]
    ∧ exB ≠ exA := by
  refine ⟨rfl, rfl, ?_⟩
  intro h
  have hv : Json.str "2.0" = Json.str "1.0" := congrArg Extension.version h
  injection hv with hs
  exact absurd hs (by decide)

/-- C9 amended: when a search yields several results with the same name, the
widget mounted for that name is the first occurrence (later DuplicateIds are
swallowed), but the correlation dict is overwritten by each later duplicate,
so the record handed to the download flow is the last one parsed with that
name, not the first. -/
theorem duplicate_names_last_record_wins (rs : List Extension) (n : Json) :
    onDownloadPressed (populateExtensions rs) n =
      (rs.filter (fun e => Json.beq e.name n)).getLast?
    ∧ (populateExtensions rs).mounted =
        firstOccurrences (rs.map Extension.name) := by
  constructor
  · show pyDictGet (rs.foldl populateStep ⟨[], []⟩).dict n = _
    rw [populate_dict_get rs ⟨[], []⟩ n]
    cases hx : (rs.filter (fun e => Json.beq e.name n)).getLast? with
    | some x => rfl
    | none => rfl
  · exact populate_mounted rs ⟨[], []⟩

/-- Witness for C3 at a concrete failing run (HTTP 404) and task id 0. -/
theorem download_errors_suppressed_witness :
    (downloadTask envNotFound (∅ : Finset Nat) 0).1.raised = none
    ∧ (downloadTask envNotFound (∅ : Finset Nat) 0).2 =
        (∅ : Finset Nat).erase 0 :=
  ⟨(download_errors_suppressed envNotFound ∅ 0).1,
   (download_errors_suppressed envNotFound ∅ 0).2.1⟩
